import Mathlib

/-!
Shallow embedding of the PostmanLite request execution engine
(`App.tsx` / `handleSend`, `addToHistory`, `RequestPanel.handleBodyTypeChange`)
together with proofs of the specification's claims about it.

JavaScript string-keyed objects are modelled as association lists
`List (String × String)` with first-match lookup and replace-or-append
assignment; JS truthiness on strings is the test against `""`.
-/

set_option autoImplicit false

namespace PostmanLite

/-- `KeyValue` rows of the params/headers/url-encoded editors
(`{id, key, value, enabled}` in `types.ts`). -/
structure KeyValue where
  id : String
  key : String
  value : String
  enabled : Bool
deriving Repr, DecidableEq

/-- The kind tag of a multipart form row (`type: 'text' | 'file'`). -/
inductive FormKind where
  | text
  | file
deriving Repr, DecidableEq

/-- An attached browser `File`: only its name and (textual stand-in for)
contents matter to the engine, which hands the blob to the transport opaquely. -/
structure FileRef where
  name : String
  content : String
deriving Repr, DecidableEq

/-- `FormDataItem` rows of the multipart editor. -/
structure FormDataItem where
  id : String
  key : String
  value : String
  enabled : Bool
  kind : FormKind
  file : Option FileRef
deriving Repr, DecidableEq

/-- `HttpMethod` in `types.ts`. -/
inductive HttpMethod where
  | GET | POST | PUT | DELETE | PATCH | HEAD | OPTIONS
deriving Repr, DecidableEq

/-- The `bodyType` union in `types.ts`:
`'none' | 'json' | 'text' | 'file' | 'form-data' | 'x-www-form-urlencoded'`. -/
inductive BodyType where
  | none | json | text | file | formData | urlEncoded
deriving Repr, DecidableEq

/-- `RequestState` in `types.ts`. -/
structure RequestState where
  id : String
  method : HttpMethod
  url : String
  params : List KeyValue
  headers : List KeyValue
  bodyType : BodyType
  bodyContent : String
  file : Option FileRef
  bodyFormData : List FormDataItem
  bodyFormUrlEncoded : List KeyValue
  stream : Bool
deriving Repr, DecidableEq

/-- `HistoryItem extends RequestState` with `timestamp` and `pinned`. -/
structure HistoryItem extends RequestState where
  timestamp : Nat
  pinned : Bool
deriving Repr, DecidableEq

/-- The slice of `AppSettings` the engine reads. -/
structure AppSettings where
  globalHeaders : List KeyValue
  cloudDocsMode : Bool
  cloudDocsAppId : String
  cloudDocsSecureKey : String
deriving Repr, DecidableEq

/-! ### JS object semantics for the header map -/

/-- First-match lookup in an association list (`obj[k]` read). -/
def lookupKV (m : List (String × String)) (k : String) : Option String :=
  match m with
  | [] => Option.none
  | p :: rest => if p.1 = k then some p.2 else lookupKV rest k

/-- `obj[k] = v`: overwrite the value at an existing key in place, keeping
insertion order; append at the end otherwise.  (The maps the engine builds
never hold duplicate keys, so overwriting the first occurrence is exact.) -/
def setKV (m : List (String × String)) (k v : String) : List (String × String) :=
  match m with
  | [] => [(k, v)]
  | p :: rest => if p.1 = k then (k, v) :: rest else p :: setKV rest k v

/-- `delete obj[k]`. -/
def delKV (m : List (String × String)) (k : String) : List (String × String) :=
  m.filter (fun p => p.1 ≠ k)

/-- One `forEach` body of the header merge:
`if (h.enabled && h.key) headers[h.key] = h.value`. -/
def applyKVRow (m : List (String × String)) (h : KeyValue) : List (String × String) :=
  if h.enabled && h.key ≠ "" then setKV m h.key h.value else m

/-- `list.forEach(h => { if (h.enabled && h.key) headers[h.key] = h.value })`. -/
def applyKVs (m : List (String × String)) (hs : List KeyValue) : List (String × String) :=
  hs.foldl applyKVRow m

/-- `Object.assign(headers, src)` for a source given as an ordered pair list. -/
def assignAll (m : List (String × String)) (src : List (String × String)) :
    List (String × String) :=
  src.foldl (fun acc p => setKV acc p.1 p.2) m

/-- Lines 167–210 of `handleSend`: start from `{}`, write the enabled global
headers, `Object.assign` the auth-injected headers, then write the enabled
per-request headers. -/
def mergeHeaders (globalHeaders : List KeyValue) (authHeaders : List (String × String))
    (reqHeaders : List KeyValue) : List (String × String) :=
  applyKVs (assignAll (applyKVs [] globalHeaders) authHeaders) reqHeaders

/-- The value a `KeyValue` source contributes at key `k`: the value of its
last enabled, non-empty-key row whose key equals `k`. -/
def lastEnabledAt (hs : List KeyValue) (k : String) : Option String :=
  (hs.reverse.find? (fun h => h.enabled && h.key = k && h.key ≠ "")).map (·.value)

/-- The value an ordered pair-list source contributes at key `k`
(last pair wins, as for `Object.assign`). -/
def lastPairAt (src : List (String × String)) (k : String) : Option String :=
  (src.reverse.find? (fun p => p.1 = k)).map (·.2)

theorem lookupKV_setKV (m : List (String × String)) (k v k' : String) :
    lookupKV (setKV m k v) k' = if k' = k then some v else lookupKV m k' := by
  induction m with
  | nil =>
    by_cases h : k' = k <;> simp [setKV, lookupKV, h, Ne.symm]
  | cons p rest ih =>
    by_cases hp : p.1 = k
    · by_cases h : k' = k <;> simp [setKV, lookupKV, hp, h, Ne.symm, hp.symm.trans]
    · simp only [setKV, if_neg hp, lookupKV]
      by_cases hq : p.1 = k'
      · have : ¬ k' = k := fun hh => hp (hq.trans hh)
        simp [hq, this]
      · simp [hq, ih]

theorem find?_concat {α : Type} (l : List α) (x : α) (p : α → Bool) :
    (l ++ [x]).find? p = ((l.find? p).orElse fun _ => if p x then some x else Option.none) := by
  induction l with
  | nil => cases h : p x <;> simp [List.find?, h, Option.orElse]
  | cons a t ih =>
    by_cases h : p a = true
    · simp [List.find?_cons_of_pos _ h, Option.orElse]
    · rw [List.cons_append, List.find?_cons_of_neg _ h, List.find?_cons_of_neg _ h, ih]

theorem lastEnabledAt_cons (h : KeyValue) (t : List KeyValue) (k : String) :
    lastEnabledAt (h :: t) k =
      ((lastEnabledAt t k).orElse fun _ =>
        if h.enabled && h.key = k && h.key ≠ "" then some h.value else Option.none) := by
  unfold lastEnabledAt
  rw [List.reverse_cons, find?_concat]
  cases hf : (t.reverse.find? (fun h => h.enabled && decide (h.key = k) && decide (h.key ≠ ""))) with
  | none =>
    cases hp : (h.enabled && decide (h.key = k) && decide (h.key ≠ "")) <;>
      simp [hf, hp, Option.orElse]
  | some y => simp [hf, Option.orElse]

theorem lastPairAt_cons (p : String × String) (t : List (String × String)) (k : String) :
    lastPairAt (p :: t) k =
      ((lastPairAt t k).orElse fun _ => if p.1 = k then some p.2 else Option.none) := by
  unfold lastPairAt
  rw [List.reverse_cons, find?_concat]
  cases hf : (t.reverse.find? (fun q => decide (q.1 = k))) with
  | none =>
    by_cases hp : p.1 = k <;> simp [hf, hp, Option.orElse]
  | some y => simp [hf, Option.orElse]

theorem lookupKV_applyKVs (hs : List KeyValue) (m : List (String × String)) (k : String) :
    lookupKV (applyKVs m hs) k = ((lastEnabledAt hs k).orElse fun _ => lookupKV m k) := by
  induction hs generalizing m with
  | nil => simp [applyKVs, lastEnabledAt, Option.orElse]
  | cons h t ih =>
    show lookupKV (applyKVs (applyKVRow m h) t) k = _
    rw [ih, lastEnabledAt_cons]
    cases hT : lastEnabledAt t k with
    | some y => simp [Option.orElse]
    | none =>
      simp only [Option.none_orElse']
      by_cases hp : (h.enabled && decide (h.key = k) && decide (h.key ≠ "")) = true
      · have hkey : h.key = k := by
          simp only [Bool.and_eq_true, decide_eq_true_eq] at hp; exact hp.1.2
        have hcond : (h.enabled && decide (h.key ≠ "")) = true := by
          simp only [Bool.and_eq_true, decide_eq_true_eq] at hp ⊢
          exact ⟨hp.1.1, hp.2⟩
        simp only [hp, if_true]
        unfold applyKVRow
        rw [if_pos hcond, lookupKV_setKV, hkey]
        simp [Option.orElse]
      · simp only [hp, if_false, Option.none_orElse']
        unfold applyKVRow
        by_cases hcond : (h.enabled && decide (h.key ≠ "")) = true
        · have hkey : ¬ h.key = k := by
            intro hk
            apply hp
            simp only [Bool.and_eq_true, decide_eq_true_eq] at hcond ⊢
            exact ⟨⟨hcond.1, hk⟩, hcond.2⟩
          rw [if_pos hcond, lookupKV_setKV, if_neg (fun hh => hkey hh.symm)]
          simp [Option.orElse]
        · rw [if_neg hcond]
          simp [Option.orElse]

theorem lookupKV_assignAll (src : List (String × String)) (m : List (String × String))
    (k : String) :
    lookupKV (assignAll m src) k = ((lastPairAt src k).orElse fun _ => lookupKV m k) := by
  induction src generalizing m with
  | nil => simp [assignAll, lastPairAt, Option.orElse]
  | cons p t ih =>
    show lookupKV (assignAll (setKV m p.1 p.2) t) k = _
    rw [ih, lastPairAt_cons]
    cases hT : lastPairAt t k with
    | some y => simp [Option.orElse]
    | none =>
      simp only [Option.none_orElse']
      by_cases hp : p.1 = k
      · rw [if_pos hp, lookupKV_setKV, hp]
        simp [Option.orElse]
      · rw [if_neg hp, lookupKV_setKV, if_neg (fun hh => hp hh.symm)]
        simp [Option.orElse]

/-- The precedence law of the merged header map: per-request beats auth beats
global, with case-sensitive (string-equality) key matching, and within one
source the last applicable row wins. -/
theorem lookupKV_mergeHeaders (g : List KeyValue) (a : List (String × String))
    (r : List KeyValue) (k : String) :
    lookupKV (mergeHeaders g a r) k =
      ((lastEnabledAt r k).orElse fun _ =>
        (lastPairAt a k).orElse fun _ => lastEnabledAt g k) := by
  unfold mergeHeaders
  rw [lookupKV_applyKVs, lookupKV_assignAll, lookupKV_applyKVs]
  cases lastEnabledAt r k <;> cases lastPairAt a k <;> cases lastEnabledAt g k <;>
    simp [lookupKV, Option.orElse]

/-! ### AuthInjector (Cloud Docs mode, lines 176–204 of `handleSend`) -/

/-- Lowercase hexadecimal digit, as produced by JS `Number.toString(16)`. -/
def hexDigitLower (n : Nat) : Char :=
  if n < 10 then Char.ofNat (48 + n) else Char.ofNat (87 + n)

/-- `b.toString(16).padStart(2, '0')` for a byte `b < 256`: since the
quotient digit of a byte is `0` when `b < 16`, emitting both base-16 digits
is exactly the padded form. -/
def byteToHex (b : Fin 256) : String :=
  String.singleton (hexDigitLower (b.val / 16)) ++ String.singleton (hexDigitLower (b.val % 16))

/-- `hmacSha256` of `App.tsx`: the HMAC-SHA256 primitive itself is the
platform's `crypto.subtle` (a black box to this code), abstracted as a
function returning the MAC bytes; the function under verification is the
byte-to-lowercase-hex rendering wrapped around it. -/
def hmacSha256Hex (hmac : String → String → List (Fin 256)) (key message : String) : String :=
  String.join ((hmac key message).map byteToHex)

/-- JS `s.slice(-n)`: the last `n` characters (the whole string when shorter). -/
def sliceLast (n : Nat) (s : String) : String :=
  String.mk (s.data.drop (s.data.length - n))

/-- The auth header set built inside the Cloud Docs branch: timestamp from
the millisecond clock, nonce = `timestamp.slice(-6)`, signing string
`appId + nonce + timestamp + authValue`, signature = lowercase-hex
HMAC-SHA256 under `secretKey`. -/
def buildAuthHeaders (hmac : String → String → List (Fin 256)) (appId secretKey : String)
    (nowMs : Nat) (authValue : String) : List (String × String) :=
  let timestamp := toString nowMs
  let nonce := sliceLast 6 timestamp
  let signStr := appId ++ nonce ++ timestamp ++ authValue
  let sign := hmacSha256Hex hmac secretKey signStr
  [("x-appid", appId),
   ("x-request-ts", timestamp),
   ("x-nonce", nonce),
   ("x-auth-type", "1"),
   ("x-auth-value", authValue),
   ("x-sign", sign)]

/-- The guard of the Cloud Docs branch:
`settings.cloudDocsMode && settings.cloudDocsAppId && settings.cloudDocsSecureKey`
(string truthiness = non-emptiness).  `authValue` is the cookie lookup result. -/
def computeAuthHeaders (hmac : String → String → List (Fin 256)) (settings : AppSettings)
    (nowMs : Nat) (authValue : String) : List (String × String) :=
  if settings.cloudDocsMode && settings.cloudDocsAppId ≠ "" && settings.cloudDocsSecureKey ≠ "" then
    buildAuthHeaders hmac settings.cloudDocsAppId settings.cloudDocsSecureKey nowMs authValue
  else []

/-! ### URL and query string (lines 212–217 of `handleSend`) -/

/-- UTF-8 encoding of a single scalar value, as bytes. -/
def utf8Bytes (c : Char) : List Nat :=
  let n := c.toNat
  if n < 128 then [n]
  else if n < 2048 then [192 + n / 64, 128 + n % 64]
  else if n < 65536 then [224 + n / 4096, 128 + (n / 64) % 64, 128 + n % 64]
  else [240 + n / 262144, 128 + (n / 4096) % 64, 128 + (n / 64) % 64, 128 + n % 64]

/-- Uppercase hexadecimal digit (percent-escapes use uppercase). -/
def hexDigitUpper (n : Nat) : Char :=
  if n < 10 then Char.ofNat (48 + n) else Char.ofNat (55 + n)

/-- `%XX` escape of one byte. -/
def percentByte (b : Nat) : String :=
  String.singleton '%' ++ String.singleton (hexDigitUpper (b / 16)) ++
    String.singleton (hexDigitUpper (b % 16))

/-- The characters `encodeURIComponent` leaves unescaped:
`A–Z a–z 0–9 - _ . ! ~ * ' ( )`. -/
def isUnescapedURI (c : Char) : Bool :=
  c.isAlphanum || c = '-' || c = '_' || c = '.' || c = '!' || c = '~' || c = '*' ||
    c.toNat = 39 || c = '(' || c = ')'

/-- ECMAScript `encodeURIComponent`: unescaped characters pass through,
every other character is emitted as the `%XX` escapes of its UTF-8 bytes. -/
def encodeURIComponent (s : String) : String :=
  String.join (s.data.map fun c =>
    if isUnescapedURI c then String.singleton c
    else String.join ((utf8Bytes c).map percentByte))

/-- A params row participates when `p.enabled && p.key` (JS truthiness). -/
def paramApplicable (p : KeyValue) : Bool :=
  p.enabled && p.key ≠ ""

/-- JS `Array.prototype.join(sep)`. -/
def jsJoin (sep : String) : List String → String
  | [] => ""
  | [x] => x
  | x :: xs => x ++ sep ++ jsJoin sep xs

/-- Lines 213–216: filter the applicable params, map each to
`encodeURIComponent(key)=encodeURIComponent(value)`, join with `&`. -/
def buildQueryString (ps : List KeyValue) : String :=
  jsJoin "&"
    ((ps.filter paramApplicable).map fun p =>
      encodeURIComponent p.key ++ "=" ++ encodeURIComponent p.value)

/-- The characters before the first occurrence of `c`. -/
def takeUntilChar (c : Char) : List Char → List Char
  | [] => []
  | x :: xs => if x = c then [] else x :: takeUntilChar c xs

/-- `url.split('?')[0]`: everything before the first `?` (the whole string
when there is none). -/
def stripQuery (url : String) : String :=
  String.mk (takeUntilChar '?' url.data)

/-- Line 217: `queryString ? url.split('?')[0] + '?' + queryString : url`. -/
def finalUrl (url : String) (ps : List KeyValue) : String :=
  let queryString := buildQueryString ps
  if queryString ≠ "" then stripQuery url ++ "?" ++ queryString else url

/-! ### Body encoding (lines 219–254 of `handleSend`) -/

/-- One entry appended to the `FormData` object: a text field or a file. -/
inductive FormField where
  | text (key value : String)
  | file (key : String) (f : FileRef)
deriving Repr, DecidableEq

/-- The `forEach` body of the multipart branch: enabled rows with non-empty
keys are appended; a row of kind `file` carrying a file is appended as a file,
every other applicable row (including a `file` row with no file attached) is
appended as a text field with its `value`. -/
def formDataEntry (item : FormDataItem) : Option FormField :=
  if item.enabled && item.key ≠ "" then
    some (match item.kind, item.file with
      | FormKind.file, some f => FormField.file item.key f
      | _, _ => FormField.text item.key item.value)
  else Option.none

/-- The multipart payload handed to the transport, in list order. -/
def buildFormData (items : List FormDataItem) : List FormField :=
  items.filterMap formDataEntry

/-- The `URLSearchParams` built in the url-encoded branch: `append` for each
enabled, non-empty-key row, in order. -/
def buildUrlEncoded (items : List KeyValue) : List (String × String) :=
  (items.filter (fun i => i.enabled && i.key ≠ "")).map fun i => (i.key, i.value)

/-- The wire payload variants of `body` in `handleSend`. -/
inductive WireBody where
  | file (f : FileRef)
  | formData (fields : List FormField)
  | urlencoded (pairs : List (String × String))
  | raw (s : String)
deriving Repr, DecidableEq

/-- Lines 219–254: `hasBody` gate, then the body-type dispatch; the
multipart branch also deletes `headers['Content-Type']` and
`headers['content-type']` from the merged header map.  Returns the payload
(`none` = no body sent) and the possibly patched header map. -/
def prepareBodyAndHeaders (r : RequestState) (headers : List (String × String)) :
    Option WireBody × List (String × String) :=
  if r.method ≠ HttpMethod.GET ∧ r.method ≠ HttpMethod.HEAD ∧ r.bodyType ≠ BodyType.none then
    match r.bodyType, r.file with
    | BodyType.file, some f => (some (WireBody.file f), headers)
    | BodyType.formData, _ =>
        (some (WireBody.formData (buildFormData r.bodyFormData)),
         delKV (delKV headers "Content-Type") "content-type")
    | BodyType.urlEncoded, _ =>
        (some (WireBody.urlencoded (buildUrlEncoded r.bodyFormUrlEncoded)), headers)
    | _, _ => (some (WireBody.raw r.bodyContent), headers)
  else (Option.none, headers)

/-! ### Response collection (lines 272–378 of `handleSend`)

JSON values and `JSON.parse` are the platform's; the collector is
parametrised by the parser (`J` = the type of parsed JSON values,
`jsonParse s = none` models a `JSON.parse` exception). -/

/-- `data` of a `ResponseState`: raw text, or a parsed JSON value. -/
inductive RespData (J : Type) where
  | text (s : String)
  | json (j : J)
deriving Repr, DecidableEq

/-- The published `ResponseState` (the `size`/`time` display strings are
presentation; `sizeBytes` carries the byte count the `size` string is
rendered from, elapsed wall-clock time is not modelled). -/
structure ResponseSnapshot (J : Type) where
  status : Nat
  statusText : String
  headers : List (String × String)
  data : RespData J
  sizeBytes : Nat
  contentType : String
  isError : Bool
deriving Repr, DecidableEq

/-- What the transport (`fetch`) resolves with.  `typeOpq` models
`res.type === 'opaque'`; `contentType` is `res.headers.get('content-type') || ''`
(the `Headers` object's case-insensitive get is the platform's, behind the
interface); `hasBodyStream` is the truthiness of `res.body`; the body byte
stream is modelled as its decoded text chunks. -/
structure TransportResponse where
  typeOpq : Bool
  status : Nat
  statusText : String
  headers : List (String × String)
  contentType : String
  hasBodyStream : Bool
  chunks : List String
deriving Repr, DecidableEq

/-- `res.ok`: status in the inclusive range 200–299. -/
def jsOk (status : Nat) : Bool :=
  200 ≤ status && status ≤ 299

/-- `res.statusText || (res.ok ? 'OK' : 'Error')`. -/
def jsStatusText (statusText : String) (status : Nat) : String :=
  if statusText ≠ "" then statusText else if jsOk status then "OK" else "Error"

/-- JS `haystack.includes(needle)` on strings. -/
def jsIncludes (haystack needle : String) : Bool :=
  decide (needle.data <:+: haystack.data)

/-- UTF-8 byte length, as computed by `new TextEncoder().encode(text).length`. -/
def utf8Length (s : String) : Nat :=
  (s.data.map fun c => (utf8Bytes c).length).sum

/-- The buffered-mode snapshot (lines 332–356): the whole body as text, a
JSON parse attempted exactly when the content type contains
`application/json`, the raw text kept when the parse throws. -/
def bufferedSnapshot {J : Type} (jsonParse : String → Option J)
    (res : TransportResponse) : ResponseSnapshot J :=
  let text := String.join res.chunks
  let data :=
    if jsIncludes res.contentType "application/json" then
      match jsonParse text with
      | some j => RespData.json j
      | Option.none => RespData.text text
    else RespData.text text
  { status := res.status
    statusText := jsStatusText res.statusText res.status
    headers := res.headers
    data := data
    sizeBytes := utf8Length text
    contentType := res.contentType
    isError := !jsOk res.status }

/-- The snapshot published for an opaque (`no-cors`) result, lines 281–290. -/
def opqSnapshot (J : Type) : ResponseSnapshot J :=
  { status := 0
    statusText := "Opaque"
    headers := []
    data := RespData.text "Opaque response received (no-cors mode). No data available."
    sizeBytes := 0
    contentType := "opaque/unknown"
    isError := false }

/-- The initial streaming snapshot (lines 303–312): headers and status
published immediately, empty body. -/
def streamInitSnapshot (J : Type) (res : TransportResponse) : ResponseSnapshot J :=
  { status := res.status
    statusText := jsStatusText res.statusText res.status
    headers := res.headers
    data := RespData.text ""
    sizeBytes := 0
    contentType := res.contentType
    isError := !jsOk res.status }

/-- The per-chunk update (lines 322–330): only `data`/size (and time) change. -/
def chunkSnapshot (J : Type) (res : TransportResponse) (accumulated : String) :
    ResponseSnapshot J :=
  { streamInitSnapshot J res with
      data := RespData.text accumulated
      sizeBytes := utf8Length accumulated }

/-- The accumulated text after each chunk of the read loop. -/
def chunkAccum (chunks : List String) : List String :=
  (chunks.scanl (fun acc c => acc ++ c) "").tail

/-- The snapshots published for a resolved `fetch` (lines 279–356), in
publication order. -/
def handleResponse {J : Type} (stream : Bool) (jsonParse : String → Option J)
    (res : TransportResponse) : List (ResponseSnapshot J) :=
  if res.typeOpq then [opqSnapshot J]
  else if stream && res.hasBodyStream then
    streamInitSnapshot J res :: (chunkAccum res.chunks).map (chunkSnapshot J res)
  else [bufferedSnapshot jsonParse res]

/-- The catch block (lines 360–374): an `AbortError` publishes nothing,
any other rejection publishes one settled error snapshot. -/
def catchPublishes (J : Type) (errName errMsg : String) : List (ResponseSnapshot J) :=
  if errName = "AbortError" then []
  else
    [{ status := 0
       statusText := "Error"
       headers := []
       data := RespData.text (errMsg ++ "\n\nRequest Failed or Aborted.")
       sizeBytes := 0
       contentType := "text/plain"
       isError := true }]

/-- The transport either rejects (with an error name and message) or
resolves with a response descriptor. -/
inductive FetchResult where
  | reject (errName errMsg : String)
  | resolve (res : TransportResponse)
deriving Repr, DecidableEq

/-- All snapshots the engine publishes for one exchange, in order. -/
def runExchange {J : Type} (stream : Bool) (jsonParse : String → Option J) :
    FetchResult → List (ResponseSnapshot J)
  | FetchResult.reject errName errMsg => catchPublishes J errName errMsg
  | FetchResult.resolve res => handleResponse stream jsonParse res

/-! ### `RequestPanel.handleBodyTypeChange` (lines 70–91) -/

/-- The fresh `Content-Type` row unshifted by `handleBodyTypeChange`. -/
def ctRow (now : Nat) (value : String) : KeyValue :=
  { id := toString now, key := "Content-Type", value := value, enabled := true }

/-- The empty trailing editor row (`Date.now().toString() + 'empty'`). -/
def emptyRow (now : Nat) : KeyValue :=
  { id := toString now ++ "empty", key := "", value := "", enabled := true }

/-- `handleBodyTypeChange`: drop every header whose lowercased key is
`content-type`, unshift the canonical one for `json`/`text`/`urlEncoded`,
re-add a trailing empty row when needed, and switch `bodyType` — nothing
else on the request changes. -/
def handleBodyTypeChange (r : RequestState) (t : BodyType) (now : Nat) : RequestState :=
  let filtered := r.headers.filter fun h => h.key.toLower ≠ "content-type"
  let withCT :=
    if t = BodyType.json then ctRow now "application/json" :: filtered
    else if t = BodyType.text then ctRow now "text/plain" :: filtered
    else if t = BodyType.urlEncoded then
      ctRow now "application/x-www-form-urlencoded" :: filtered
    else filtered
  let newHeaders :=
    match withCT.getLast? with
    | Option.none => withCT ++ [emptyRow now]
    | some last =>
        if last.key ≠ "" || last.value ≠ "" then withCT ++ [emptyRow now] else withCT
  { r with bodyType := t, headers := newHeaders }

/-! ### `addToHistory` (lines 98–112) -/

/-- `{...item, file: undefined}` on a multipart row. -/
def stripFormFile (i : FormDataItem) : FormDataItem :=
  { i with file := Option.none }

/-- `addToHistory`: clone the request with both kinds of file blob removed,
a fresh `Date.now()`-derived id, a timestamp and `pinned: false`; prepend
and keep the first 50 entries. -/
def addToHistory (req : RequestState) (history : List HistoryItem) (now : Nat) :
    List HistoryItem :=
  let newItem : HistoryItem :=
    { req with
        file := Option.none
        bodyFormData := req.bodyFormData.map stripFormFile
        id := toString now
        timestamp := now
        pinned := false }
  (newItem :: history).take 50

/-! ### Auxiliary lemmas -/

theorem lookupKV_delKV (m : List (String × String)) (k k' : String) :
    lookupKV (delKV m k) k' = if k' = k then Option.none else lookupKV m k' := by
  induction m with
  | nil => by_cases h : k' = k <;> simp [delKV, lookupKV, h]
  | cons p rest ih =>
    by_cases hp : p.1 = k
    · have : delKV (p :: rest) k = delKV rest k := by simp [delKV, hp]
      rw [this, ih]
      by_cases h : k' = k
      · simp [h]
      · simp only [if_neg h, lookupKV]
        rw [if_neg (fun hh : p.1 = k' => h (hh.symm.trans hp))]
    · have : delKV (p :: rest) k = p :: delKV rest k := by simp [delKV, hp]
      rw [this]
      simp only [lookupKV, ih]
      by_cases hq : p.1 = k'
      · have : ¬ k' = k := fun hh => hp (hq.trans hh)
        simp [hq, this]
      · simp [hq]

/-- A lowercase hexadecimal digit: `0–9` or `a–f`. -/
def isLowerHexDigit (c : Char) : Bool :=
  ('0' ≤ c && c ≤ '9') || ('a' ≤ c && c ≤ 'f')

theorem byteToHex_lowerHex (b : Fin 256) :
    (byteToHex b).data.all isLowerHexDigit = true := by
  have hdig : ∀ n : Fin 16, isLowerHexDigit (hexDigitLower n.val) = true := by decide
  have hq : b.val / 16 < 16 := by omega
  have hr : b.val % 16 < 16 := Nat.mod_lt _ (by norm_num)
  have h1 := hdig ⟨b.val / 16, hq⟩
  have h2 := hdig ⟨b.val % 16, hr⟩
  simp only [byteToHex, String.data_append]
  simp [String.singleton, h1, h2]

theorem join_map_byteToHex_lowerHex (bs : List (Fin 256)) :
    (String.join (bs.map byteToHex)).data.all isLowerHexDigit = true := by
  induction bs with
  | nil => rfl
  | cons b t ih =>
    have hjoin : String.join (byteToHex b :: t.map byteToHex) =
        byteToHex b ++ String.join (t.map byteToHex) := by
      show (byteToHex b :: t.map byteToHex).foldl (· ++ ·) "" = _
      rw [List.foldl_cons]
      have : ∀ (l : List String) (s : String), l.foldl (· ++ ·) s = s ++ l.foldl (· ++ ·) "" := by
        intro l
        induction l with
        | nil => intro s; simp
        | cons x xs ihl =>
          intro s
          rw [List.foldl_cons, List.foldl_cons, ihl, ihl ("" ++ x)]
          simp [String.append_assoc]
      rw [this]
      simp [String.join]
    rw [List.map_cons, hjoin]
    simp only [String.data_append, List.all_append]
    rw [byteToHex_lowerHex b, ih]
    rfl

/-- The field a multipart editor row contributes when it participates. -/
def partField (item : FormDataItem) : FormField :=
  match item.kind, item.file with
  | FormKind.file, some f => FormField.file item.key f
  | _, _ => FormField.text item.key item.value

theorem buildFormData_eq (items : List FormDataItem) :
    buildFormData items =
      (items.filter fun i => i.enabled && i.key ≠ "").map partField := by
  induction items with
  | nil => rfl
  | cons i t ih =>
    by_cases h : (i.enabled && decide (i.key ≠ "")) = true
    · simp only [buildFormData, List.filterMap_cons, formDataEntry, h, if_true,
        List.filter_cons, List.map_cons] at *
      rw [← ih]
      rfl
    · simp only [buildFormData, List.filterMap_cons, formDataEntry, h, if_false,
        List.filter_cons] at *
      exact ih

theorem length_le_jsJoin (sep : String) (a : String) (l : List String) :
    a.length ≤ (jsJoin sep (a :: l)).length := by
  cases l with
  | nil => simp [jsJoin]
  | cons x xs =>
    show a.length ≤ (a ++ sep ++ jsJoin sep (x :: xs)).length
    simp only [String.length_append]
    omega

theorem buildQueryString_ne_empty (ps : List KeyValue) (q : KeyValue) (rest : List KeyValue)
    (h : ps.filter paramApplicable = q :: rest) : buildQueryString ps ≠ "" := by
  intro hempty
  have : buildQueryString ps =
      jsJoin "&" ((q :: rest).map fun p =>
        encodeURIComponent p.key ++ "=" ++ encodeURIComponent p.value) := by
    rw [buildQueryString, h]
  rw [this] at hempty
  have hlen := length_le_jsJoin "&"
    (encodeURIComponent q.key ++ "=" ++ encodeURIComponent q.value)
    (rest.map fun p => encodeURIComponent p.key ++ "=" ++ encodeURIComponent p.value)
  rw [List.map_cons] at hempty
  rw [hempty] at hlen
  simp only [String.length_append] at hlen
  have : ("" : String).length = 0 := rfl
  have heq : ("=" : String).length = 1 := rfl
  omega

/-! ### Claims -/

/-- C2: for every send, the outgoing header map is the merge of global
headers, then auth-injected headers, then per-request headers, from lowest
to highest precedence with case-sensitive key matching: the value at any
key is the per-request one if defined there, else the auth one, else the
global one; in particular global `X=1`, auth `X=2`, per-request `X=3`
resolves to `3`. -/
theorem C2_header_merge_precedence :
    (∀ (g : List KeyValue) (a : List (String × String)) (r : List KeyValue) (k : String),
      lookupKV (mergeHeaders g a r) k =
        ((lastEnabledAt r k).orElse fun _ =>
          (lastPairAt a k).orElse fun _ => lastEnabledAt g k)) ∧
    lookupKV (mergeHeaders
      [{ id := "g1", key := "X", value := "1", enabled := true }]
      [("X", "2")]
      [{ id := "r1", key := "X", value := "3", enabled := true }]) "X" = some "3" :=
  ⟨lookupKV_mergeHeaders, rfl⟩

/-- C3: a request whose method is GET or HEAD sends an empty wire payload
regardless of the configured body type and contents, and so does any
method when the body type is `none`. -/
theorem C3_empty_payload_get_head_none (r : RequestState) (m : List (String × String))
    (h : r.method = HttpMethod.GET ∨ r.method = HttpMethod.HEAD ∨
      r.bodyType = BodyType.none) :
    (prepareBodyAndHeaders r m).1 = Option.none := by
  unfold prepareBodyAndHeaders
  rcases h with h | h | h <;> simp [h]

/-- A GET request carrying a fully configured non-`none` body. -/
def wGetReq : RequestState :=
  { id := "1", method := HttpMethod.GET, url := "https://x.test/r", params := [],
    headers := [], bodyType := BodyType.json, bodyContent := "abc",
    file := Option.none, bodyFormData := [], bodyFormUrlEncoded := [], stream := false }

theorem C3_witness :
    (wGetReq.method = HttpMethod.GET ∨ wGetReq.method = HttpMethod.HEAD ∨
      wGetReq.bodyType = BodyType.none) ∧
    (prepareBodyAndHeaders wGetReq []).1 = Option.none :=
  ⟨Or.inl rfl, C3_empty_payload_get_head_none wGetReq [] (Or.inl rfl)⟩

/-- C7: an opaque transport result settles as exactly one well-formed
non-error snapshot with status 0, content type `opaque/unknown`,
`isError = false` and a descriptive text body. -/
theorem C7_opaque_result_not_error {J : Type} (stream : Bool)
    (jsonParse : String → Option J) (res : TransportResponse)
    (h : res.typeOpq = true) :
    handleResponse stream jsonParse res = [opqSnapshot J] ∧
    (opqSnapshot J).status = 0 ∧
    (opqSnapshot J).contentType = "opaque/unknown" ∧
    (opqSnapshot J).isError = false ∧
    (opqSnapshot J).data =
      RespData.text "Opaque response received (no-cors mode). No data available." := by
  refine ⟨?_, rfl, rfl, rfl, rfl⟩
  simp [handleResponse, h]

/-- An opaque transport result. -/
def wOpqRes : TransportResponse :=
  { typeOpq := true, status := 0, statusText := "", headers := [],
    contentType := "", hasBodyStream := false, chunks := [] }

theorem C7_witness :
    wOpqRes.typeOpq = true ∧
    (handleResponse false (fun _ => (Option.none : Option Nat)) wOpqRes =
        [opqSnapshot Nat] ∧
      (opqSnapshot Nat).status = 0 ∧
      (opqSnapshot Nat).contentType = "opaque/unknown" ∧
      (opqSnapshot Nat).isError = false ∧
      (opqSnapshot Nat).data =
        RespData.text "Opaque response received (no-cors mode). No data available.") :=
  ⟨rfl, C7_opaque_result_not_error false (fun _ => Option.none) wOpqRes rfl⟩

/-- C8: a non-abort transport rejection publishes exactly one settled error
snapshot with status 0, `isError = true` and a message built from the
error's text, while an `AbortError` rejection publishes nothing (the
previously published response state is retained). -/
theorem C8_reject_error_vs_abort {J : Type} (stream : Bool)
    (jsonParse : String → Option J) (name msg : String)
    (hname : name ≠ "AbortError") :
    runExchange stream jsonParse (FetchResult.reject name msg) =
      [{ status := 0, statusText := "Error", headers := [],
         data := RespData.text (msg ++ "\n\nRequest Failed or Aborted."),
         sizeBytes := 0, contentType := "text/plain", isError := true }] ∧
    runExchange stream jsonParse (FetchResult.reject "AbortError" msg) = [] := by
  constructor
  · simp [runExchange, catchPublishes, hname]
  · simp [runExchange, catchPublishes]

theorem C8_witness :
    ("TypeError" : String) ≠ "AbortError" ∧
    (runExchange false (fun _ => (Option.none : Option Nat))
        (FetchResult.reject "TypeError" "Failed to fetch") =
      [{ status := 0, statusText := "Error", headers := [],
         data := RespData.text ("Failed to fetch" ++ "\n\nRequest Failed or Aborted."),
         sizeBytes := 0, contentType := "text/plain", isError := true }] ∧
      runExchange false (fun _ => (Option.none : Option Nat))
        (FetchResult.reject "AbortError" "Failed to fetch") = []) :=
  ⟨by decide,
   C8_reject_error_vs_abort false (fun _ => Option.none) "TypeError" "Failed to fetch"
     (by decide)⟩

/-- C9: switching the body type changes only `bodyType` and the header
list: the data of every body variant (`bodyContent`, `file`,
`bodyFormData`, `bodyFormUrlEncoded`) is untouched, and in particular the
round trip text → json → text leaves the original text unchanged. -/
theorem C9_body_switch_preserves_variants (r : RequestState) (t : BodyType)
    (n n1 n2 : Nat) :
    (handleBodyTypeChange r t n).bodyContent = r.bodyContent ∧
    (handleBodyTypeChange r t n).file = r.file ∧
    (handleBodyTypeChange r t n).bodyFormData = r.bodyFormData ∧
    (handleBodyTypeChange r t n).bodyFormUrlEncoded = r.bodyFormUrlEncoded ∧
    (handleBodyTypeChange (handleBodyTypeChange r BodyType.json n1)
      BodyType.text n2).bodyContent = r.bodyContent :=
  ⟨rfl, rfl, rfl, rfl, rfl⟩

/-- C1: with auth enabled (Cloud Docs mode on and both credentials
non-empty), the injected header set carries the millisecond timestamp, a
nonce equal to the last 6 characters of the timestamp string, and a
signature that is the (abstract, platform-supplied) HMAC-SHA256 keyed by
`secretKey` of the separator-free concatenation
`appId + nonce + timestamp + authValue`, rendered as lowercase hex. -/
theorem C1_auth_header_computation (hmac : String → String → List (Fin 256))
    (s : AppSettings) (nowMs : Nat) (authValue : String)
    (hMode : s.cloudDocsMode = true) (hApp : s.cloudDocsAppId ≠ "")
    (hKey : s.cloudDocsSecureKey ≠ "") :
    lookupKV (computeAuthHeaders hmac s nowMs authValue) "x-request-ts" =
      some (toString nowMs) ∧
    lookupKV (computeAuthHeaders hmac s nowMs authValue) "x-nonce" =
      some (sliceLast 6 (toString nowMs)) ∧
    (sliceLast 6 (toString nowMs)).data <:+ (toString nowMs).data ∧
    (6 ≤ (toString nowMs).data.length → (sliceLast 6 (toString nowMs)).data.length = 6) ∧
    lookupKV (computeAuthHeaders hmac s nowMs authValue) "x-auth-value" = some authValue ∧
    lookupKV (computeAuthHeaders hmac s nowMs authValue) "x-sign" =
      some (hmacSha256Hex hmac s.cloudDocsSecureKey
        (s.cloudDocsAppId ++ sliceLast 6 (toString nowMs) ++ toString nowMs ++ authValue)) ∧
    (∀ key msg : String, (hmacSha256Hex hmac key msg).data.all isLowerHexDigit = true) := by
  have hguard : computeAuthHeaders hmac s nowMs authValue =
      buildAuthHeaders hmac s.cloudDocsAppId s.cloudDocsSecureKey nowMs authValue := by
    simp [computeAuthHeaders, hMode, hApp, hKey]
  refine ⟨?_, ?_, ?_, ?_, ?_, ?_, ?_⟩
  · rw [hguard]; rfl
  · rw [hguard]; rfl
  · show ((toString nowMs).data.drop _) <:+ _
    exact List.drop_suffix _ _
  · intro h6
    show ((toString nowMs).data.drop ((toString nowMs).data.length - 6)).length = 6
    rw [List.length_drop]
    omega
  · rw [hguard]; rfl
  · rw [hguard]; rfl
  · intro key msg
    exact join_map_byteToHex_lowerHex (hmac key msg)

/-- Concrete auth settings and a stand-in MAC for the witness. -/
def wAuthSettings : AppSettings :=
  { globalHeaders := [], cloudDocsMode := true, cloudDocsAppId := "app",
    cloudDocsSecureKey := "sec" }

/-- A stand-in for the platform MAC primitive: two fixed bytes. -/
def wHmac : String → String → List (Fin 256) := fun _ _ => [171, 5]

theorem C1_witness :
    (wAuthSettings.cloudDocsMode = true ∧ wAuthSettings.cloudDocsAppId ≠ "" ∧
      wAuthSettings.cloudDocsSecureKey ≠ "") ∧
    lookupKV (computeAuthHeaders wHmac wAuthSettings 1700000000123 "cookie") "x-nonce" =
      some (sliceLast 6 (toString 1700000000123)) ∧
    lookupKV (computeAuthHeaders wHmac wAuthSettings 1700000000123 "cookie") "x-sign" =
      some (hmacSha256Hex wHmac wAuthSettings.cloudDocsSecureKey
        (wAuthSettings.cloudDocsAppId ++ sliceLast 6 (toString 1700000000123) ++
          toString 1700000000123 ++ "cookie")) ∧
    (hmacSha256Hex wHmac "sec" "m").data.all isLowerHexDigit = true :=
  ⟨⟨rfl, by decide, by decide⟩,
   (C1_auth_header_computation wHmac wAuthSettings 1700000000123 "cookie" rfl
      (by decide) (by decide)).2.1,
   (C1_auth_header_computation wHmac wAuthSettings 1700000000123 "cookie" rfl
      (by decide) (by decide)).2.2.2.2.2.1,
   (C1_auth_header_computation wHmac wAuthSettings 1700000000123 "cookie" rfl
      (by decide) (by decide)).2.2.2.2.2.2 "sec" "m"⟩

/-- An enabled, non-empty-key `file`-kind multipart row with no file attached. -/
def wFilePart : FormDataItem :=
  { id := "1", key := "k", value := "v", enabled := true, kind := FormKind.file,
    file := Option.none }

/-- A POST multipart request whose single part is `wFilePart`. -/
def wFormReq : RequestState :=
  { id := "1", method := HttpMethod.POST, url := "u", params := [], headers := [],
    bodyType := BodyType.formData, bodyContent := "", file := Option.none,
    bodyFormData := [wFilePart], bodyFormUrlEncoded := [], stream := false }

/-- C4 counterexample: on a multipart send, an enabled `file`-kind part with
no file attached is not skipped — it is appended as a text field carrying
its `value`; and a manually set `CONTENT-TYPE` header (any spelling other
than the literal keys `Content-Type`/`content-type`) survives the header
patch. -/
theorem C4_counterexample :
    (prepareBodyAndHeaders wFormReq [("CONTENT-TYPE", "text/plain")]).1 =
      some (WireBody.formData [FormField.text "k" "v"]) ∧
    lookupKV (prepareBodyAndHeaders wFormReq [("CONTENT-TYPE", "text/plain")]).2
      "CONTENT-TYPE" = some "text/plain" :=
  ⟨rfl, rfl⟩

/-- C4 (amended): on a multipart send the payload holds exactly the enabled
parts with non-empty keys, in list order; a `file`-kind part with a file is
appended as a file attachment, any other applicable part — including a
`file`-kind part with no file attached — is appended as a text field
carrying its `value`; the header patch removes exactly the literal keys
`Content-Type` and `content-type` from the merged header map. -/
theorem C4_multipart_encoding (r : RequestState) (m : List (String × String))
    (hbt : r.bodyType = BodyType.formData)
    (hm1 : r.method ≠ HttpMethod.GET) (hm2 : r.method ≠ HttpMethod.HEAD) :
    (prepareBodyAndHeaders r m).1 =
      some (WireBody.formData
        ((r.bodyFormData.filter fun i => i.enabled && i.key ≠ "").map partField)) ∧
    (∀ i : FormDataItem, i.kind = FormKind.text →
      partField i = FormField.text i.key i.value) ∧
    (∀ (i : FormDataItem) (f : FileRef), i.kind = FormKind.file → i.file = some f →
      partField i = FormField.file i.key f) ∧
    (∀ i : FormDataItem, i.kind = FormKind.file → i.file = Option.none →
      partField i = FormField.text i.key i.value) ∧
    (∀ k : String, lookupKV (prepareBodyAndHeaders r m).2 k =
      if k = "Content-Type" ∨ k = "content-type" then Option.none else lookupKV m k) := by
  have hne : r.bodyType ≠ BodyType.none := by rw [hbt]; intro h; cases h
  have hpair : prepareBodyAndHeaders r m =
      (some (WireBody.formData (buildFormData r.bodyFormData)),
       delKV (delKV m "Content-Type") "content-type") := by
    unfold prepareBodyAndHeaders
    rw [if_pos ⟨hm1, hm2, hne⟩, hbt]
  refine ⟨?_, ?_, ?_, ?_, ?_⟩
  · rw [hpair, buildFormData_eq]
  · intro i hk
    unfold partField
    rw [hk]
  · intro i f hk hf
    unfold partField
    rw [hk, hf]
  · intro i hk hf
    unfold partField
    rw [hk, hf]
  · intro k
    rw [hpair]
    show lookupKV (delKV (delKV m "Content-Type") "content-type") k = _
    rw [lookupKV_delKV, lookupKV_delKV]
    by_cases h1 : k = "content-type"
    · simp [h1]
    · by_cases h2 : k = "Content-Type" <;> simp [h1, h2]

theorem C4_witness :
    (wFormReq.bodyType = BodyType.formData ∧ wFormReq.method ≠ HttpMethod.GET ∧
      wFormReq.method ≠ HttpMethod.HEAD) ∧
    (prepareBodyAndHeaders wFormReq [("Content-Type", "text/plain")]).1 =
      some (WireBody.formData
        ((wFormReq.bodyFormData.filter fun i => i.enabled && i.key ≠ "").map partField)) ∧
    lookupKV (prepareBodyAndHeaders wFormReq [("Content-Type", "text/plain")]).2
      "Content-Type" = Option.none :=
  ⟨⟨rfl, by decide, by decide⟩,
   (C4_multipart_encoding wFormReq [("Content-Type", "text/plain")] rfl
      (by decide) (by decide)).1,
   ((C4_multipart_encoding wFormReq [("Content-Type", "text/plain")] rfl
      (by decide) (by decide)).2.2.2.2 "Content-Type").trans (by simp)⟩

/-- C5 counterexample: when no enabled, non-empty-key param exists, the
base URL is returned unchanged, pre-existing query string included — the
final URL's query is then not built from the params entries and nothing is
stripped. -/
theorem C5_counterexample :
    finalUrl "http://x/a?old=1" [] = "http://x/a?old=1" ∧
    stripQuery "http://x/a?old=1" = "http://x/a" ∧
    finalUrl "http://x/a?old=1" [] ≠ "http://x/a" :=
  ⟨rfl, by decide, by decide⟩

/-- C5 (amended): when at least one enabled, non-empty-key param exists,
the final URL is the base URL with any pre-existing query stripped,
followed by `?` and the `&`-joined pairs with each key and value
percent-encoded independently, in list order; when none exists the URL is
returned unchanged, pre-existing query string included. -/
theorem C5_query_building (url : String) (ps : List KeyValue) :
    (ps.filter paramApplicable ≠ [] →
      finalUrl url ps = stripQuery url ++ "?" ++
        jsJoin "&" ((ps.filter paramApplicable).map fun p =>
          encodeURIComponent p.key ++ "=" ++ encodeURIComponent p.value)) ∧
    (ps.filter paramApplicable = [] → finalUrl url ps = url) := by
  constructor
  · intro hne
    rcases List.exists_cons_of_ne_nil hne with ⟨q, rest, hq⟩
    have hqs : buildQueryString ps ≠ "" := buildQueryString_ne_empty ps q rest hq
    unfold finalUrl
    rw [if_pos hqs]
    rfl
  · intro hnil
    have hqs : buildQueryString ps = "" := by
      unfold buildQueryString
      rw [hnil]
      rfl
    unfold finalUrl
    rw [hqs]
    rfl

/-- An enabled param with a space in key and value, exercising encoding. -/
def wParam : KeyValue := { id := "1", key := "q 1", value := "a b", enabled := true }

theorem C5_witness :
    ([wParam].filter paramApplicable ≠ [] ∧
      finalUrl "http://x/a?old=1" [wParam] = stripQuery "http://x/a?old=1" ++ "?" ++
        jsJoin "&" (([wParam].filter paramApplicable).map fun p =>
          encodeURIComponent p.key ++ "=" ++ encodeURIComponent p.value)) ∧
    (([] : List KeyValue).filter paramApplicable = [] ∧
      finalUrl "http://x/a?old=1" [] = "http://x/a?old=1") :=
  ⟨⟨by decide, (C5_query_building "http://x/a?old=1" [wParam]).1 (by decide)⟩,
   ⟨rfl, (C5_query_building "http://x/a?old=1" []).2 rfl⟩⟩

/-- C6: in buffered (non-streaming) mode exactly one terminal snapshot is
published; its `isError` flag depends only on the HTTP status, never on the
parse outcome; a JSON parse of the body is attempted iff the response
content type contains `application/json` (without it the snapshot does not
depend on the parser at all and the body stays raw text); a failed parse
retains the raw text; a successful parse yields the parsed value. -/
theorem C6_buffered_json_detection {J : Type} (jsonParse : String → Option J)
    (stream : Bool) (res : TransportResponse)
    (hOp : res.typeOpq = false) (hBuf : (stream && res.hasBodyStream) = false) :
    handleResponse stream jsonParse res = [bufferedSnapshot jsonParse res] ∧
    (∀ p : String → Option J, (bufferedSnapshot p res).isError = !jsOk res.status) ∧
    (jsIncludes res.contentType "application/json" = false →
      (bufferedSnapshot jsonParse res).data = RespData.text (String.join res.chunks) ∧
      ∀ p q : String → Option J, bufferedSnapshot p res = bufferedSnapshot q res) ∧
    (jsIncludes res.contentType "application/json" = true →
      jsonParse (String.join res.chunks) = Option.none →
      (bufferedSnapshot jsonParse res).data = RespData.text (String.join res.chunks)) ∧
    (∀ j : J, jsIncludes res.contentType "application/json" = true →
      jsonParse (String.join res.chunks) = some j →
      (bufferedSnapshot jsonParse res).data = RespData.json j) := by
  refine ⟨?_, fun p => rfl, ?_, ?_, ?_⟩
  · simp [handleResponse, hOp, hBuf]
  · intro hct
    constructor
    · simp [bufferedSnapshot, hct]
    · intro p q
      simp [bufferedSnapshot, hct]
  · intro hct hparse
    simp [bufferedSnapshot, hct, hparse]
  · intro j hct hparse
    simp [bufferedSnapshot, hct, hparse]

/-- A JSON-declared response whose body is not valid JSON for the witness
parser (which rejects everything). -/
def wJsonRes : TransportResponse :=
  { typeOpq := false, status := 200, statusText := "OK",
    headers := [("content-type", "application/json")],
    contentType := "application/json", hasBodyStream := true, chunks := ["nope"] }

theorem C6_witness :
    (wJsonRes.typeOpq = false ∧ (false && wJsonRes.hasBodyStream) = false) ∧
    handleResponse false (fun _ => (Option.none : Option Nat)) wJsonRes =
      [bufferedSnapshot (fun _ => (Option.none : Option Nat)) wJsonRes] ∧
    (bufferedSnapshot (fun _ => (Option.none : Option Nat)) wJsonRes).isError =
      !jsOk wJsonRes.status ∧
    (bufferedSnapshot (fun _ => (Option.none : Option Nat)) wJsonRes).data =
      RespData.text (String.join wJsonRes.chunks) :=
  ⟨⟨rfl, rfl⟩,
   (C6_buffered_json_detection (fun _ => Option.none) false wJsonRes rfl rfl).1,
   (C6_buffered_json_detection (fun _ => (Option.none : Option Nat)) false wJsonRes rfl
      rfl).2.1 (fun _ => Option.none),
   (C6_buffered_json_detection (fun _ => Option.none) false wJsonRes rfl rfl).2.2.2.1
     (by decide) rfl⟩

/-- A request with a non-trivial id, a top-level file and a multipart file,
for the history claims. -/
def wHistReq : RequestState :=
  { id := "abc", method := HttpMethod.POST, url := "u", params := [], headers := [],
    bodyType := BodyType.formData, bodyContent := "body", file := some ⟨"f.bin", "data"⟩,
    bodyFormData := [wFilePart], bodyFormUrlEncoded := [], stream := false }

/-- C10 counterexample: the entry prepended to history does not preserve the
request's `id` — it is replaced by the fresh `Date.now()`-derived string. -/
theorem C10_counterexample :
    wHistReq.id = "abc" ∧
    (addToHistory wHistReq [] 5).map (fun x => x.id) = ["5"] :=
  ⟨rfl, rfl⟩

/-- C10 (amended): after a successful execution the history holds at most
50 entries; the new entry is prepended with its binary blobs removed (top
level file set to `none`, every multipart part's file removed with the
part's other fields kept) and its `id` replaced by a fresh
timestamp-derived identifier, while every other request field is
preserved. -/
theorem C10_history_invariants (req : RequestState) (h : List HistoryItem) (now : Nat) :
    (addToHistory req h now).length ≤ 50 ∧
    ∃ cleaned : HistoryItem,
      addToHistory req h now = cleaned :: h.take 49 ∧
      cleaned.file = Option.none ∧
      cleaned.bodyFormData = req.bodyFormData.map stripFormFile ∧
      (∀ i : FormDataItem, (stripFormFile i).file = Option.none ∧
        (stripFormFile i).id = i.id ∧ (stripFormFile i).key = i.key ∧
        (stripFormFile i).value = i.value ∧ (stripFormFile i).enabled = i.enabled ∧
        (stripFormFile i).kind = i.kind) ∧
      cleaned.method = req.method ∧ cleaned.url = req.url ∧
      cleaned.params = req.params ∧ cleaned.headers = req.headers ∧
      cleaned.bodyType = req.bodyType ∧ cleaned.bodyContent = req.bodyContent ∧
      cleaned.bodyFormUrlEncoded = req.bodyFormUrlEncoded ∧
      cleaned.stream = req.stream ∧
      cleaned.id = toString now ∧ cleaned.timestamp = now ∧ cleaned.pinned = false := by
  constructor
  · show ((_ :: h).take 50).length ≤ 50
    rw [List.length_take]
    omega
  · refine ⟨_, rfl, rfl, rfl, fun i => ⟨rfl, rfl, rfl, rfl, rfl, rfl⟩,
      rfl, rfl, rfl, rfl, rfl, rfl, rfl, rfl, rfl, rfl, rfl⟩

end PostmanLite
